import Mathlib

/-!
Shallow embedding of the playback core of `music.py`:
the streaming loop of `AudioThread.run` (chunked gain/mute pipeline,
position accounting, error and completion callbacks) and the
`AudioPlayerWindow` transport controller (playlist, history, seek,
volume, repeat/shuffle advance).  Machine integers are modelled as `ℤ`
with explicit wrap-around where `numpy.astype(int16)` converts, and the
float gain is modelled as an exact rational in `[0,1]`.
-/

namespace Music

/-- Smallest value representable in `int16` (the sample format of the stream). -/
def int16Min : ℤ := -32768

/-- Largest value representable in `int16`. -/
def int16Max : ℤ := 32767

/-- Truncation toward zero of a rational, as Python `int(...)` and
`numpy.astype` on a float value behave. -/
def ratTrunc (q : ℚ) : ℤ := if 0 ≤ q then ⌊q⌋ else ⌈q⌉

/-- Wrap-around conversion of an integer into the `int16` range, modelling the
unchecked C cast performed by `numpy.astype(np.int16)` (src/music.py:104). -/
def toInt16Wrap (n : ℤ) : ℤ := Int.emod (n + 32768) 65536 - 32768

/-- Clamping of an integer into the `int16` range. -/
def clipInt16 (n : ℤ) : ℤ := max int16Min (min int16Max n)

/-- One sample multiplied by the gain (`chunk * current_volume`,
src/music.py:104); the exact product is then truncated toward zero
by the conversion back to `int16`. -/
def scaleSample (g : ℚ) (x : ℤ) : ℤ := ratTrunc ((x : ℚ) * g)

/-- Muting: `chunk = np.zeros_like(chunk)` keeps the shape and zeroes every
sample (src/music.py:100-101). -/
def applyMute (muted : Bool) (chunk : List ℤ) : List ℤ :=
  if muted then chunk.map (fun _ => 0) else chunk

/-- The per-chunk sample pipeline of `AudioThread.run` (src/music.py:100-104):
mute substitution, then multiplication by the shared volume and conversion
back to `int16` via the wrapping cast. -/
def processChunk (muted : Bool) (g : ℚ) (chunk : List ℤ) : List ℤ :=
  (applyMute muted chunk).map (fun x => toInt16Wrap (scaleSample g x))

/-- `chunk_size = 1024` (src/music.py:86). -/
def chunkSize : ℕ := 1024

/-- Python `range(0, n, step)` for a positive `step`: the frame offsets the
streaming loop iterates over (src/music.py:91). -/
def pyRange (n step : ℕ) : List ℕ :=
  (List.range ((n + step - 1) / step)).map (fun k => k * step)

/-- Shared state read by the streaming loop once per chunk, indexed by the
loop's frame offset `i`: the `muted` flag and `volume` published by the
control surface, the `stop_flag`, and whether the device write succeeds. -/
structure ChunkEnv where
  mutedAt : ℕ → Bool
  gainAt : ℕ → ℚ
  stopAt : ℕ → Bool
  writeOk : ℕ → Bool

/-- Observable outcome of the streaming loop: chunks actually written to the
device, arguments passed to `update_visualization`, error-callback count,
and the final `playback_position` (milliseconds). -/
structure LoopOut where
  writes : List (List ℤ)
  viz : List (List ℤ × ℕ)
  errors : ℕ
  pos : ℚ

/-- The chunk loop of `AudioThread.run` (src/music.py:91-114), iterating over
the frame offsets `pyRange` of the truncated data: check the stop flag,
slice the chunk, stop on an empty slice, apply mute and gain, write
(breaking with an error message on a write failure), update the shared
position to `(current_frame + i + len(chunk)) / samplerate * 1000`, and
forward the written chunk to the visualization callback. -/
def streamLoop (env : ChunkEnv) (samplerate : ℕ) (currentFrame : ℕ)
    (data : List ℤ) : List ℕ → ℚ → LoopOut
  | [], pos => ⟨[], [], 0, pos⟩
  | i :: rest, pos =>
    if env.stopAt i then ⟨[], [], 0, pos⟩
    else
      let chunk := (data.drop i).take chunkSize
      if chunk.length = 0 then ⟨[], [], 0, pos⟩
      else
        let written := processChunk (env.mutedAt i) (env.gainAt i) chunk
        if env.writeOk i then
          let newPos := ((currentFrame + i + chunk.length : ℕ) : ℚ) / (samplerate : ℚ) * 1000
          let r := streamLoop env samplerate currentFrame data rest newPos
          ⟨written :: r.writes, (written, written.length) :: r.viz, r.errors, r.pos⟩
        else ⟨[], [], 1, pos⟩

/-- Inputs of one `AudioThread.run` invocation: whether the file exists,
the decode result (frames and sample rate, `none` when `soundfile.read`
fails), whether the output device opens, the start position read from
`player.playback_position`, and the per-chunk shared state. -/
structure RunInput where
  fileExists : Bool
  decodeResult : Option (List ℤ × ℕ)
  deviceOk : Bool
  startPos : ℚ
  env : ChunkEnv

/-- Observable outcome of one `AudioThread.run` invocation. -/
structure RunResult where
  errors : ℕ
  completions : ℕ
  writes : List (List ℤ)
  viz : List (List ℤ × ℕ)
  finalPos : ℚ

/-- `current_frame = int((playback_position / 1000.0) * samplerate)`
(src/music.py:87), for the non-negative positions the controller produces. -/
def startFrame (startPos : ℚ) (samplerate : ℕ) : ℕ :=
  (ratTrunc (startPos / 1000 * (samplerate : ℚ))).toNat

/-- `AudioThread.run` (src/music.py:64-123): a missing file or a failed
decode/device-open reports an error and returns before streaming; otherwise
the data is truncated at the start frame, the chunk loop runs, and the
`finally` block releases the device and invokes `playback_finished`
exactly once on every exit path. -/
def run (inp : RunInput) : RunResult :=
  if inp.fileExists = false then ⟨1, 0, [], [], inp.startPos⟩
  else
    match inp.decodeResult with
    | none => ⟨1, 0, [], [], inp.startPos⟩
    | some (data, samplerate) =>
      if inp.deviceOk = false then ⟨1, 0, [], [], inp.startPos⟩
      else
        let currentFrame := startFrame inp.startPos samplerate
        let trimmed := data.drop currentFrame
        let out := streamLoop inp.env samplerate currentFrame trimmed
          (pyRange trimmed.length chunkSize) inp.startPos
        ⟨out.errors, 1, out.writes, out.viz, out.pos⟩

/-- An `AudioTrack` (src/music.py:24-51): its path and, from the duration
probe, the frame count and sample rate of the file (`frames = 0` models a
failed probe, giving duration 0). -/
structure Track where
  path : String
  frames : ℕ
  samplerate : ℕ
deriving DecidableEq

/-- `AudioTrack.duration = len(f) / f.samplerate` in seconds (src/music.py:44-51). -/
def Track.duration (t : Track) : ℚ := (t.frames : ℚ) / (t.samplerate : ℚ)

/-- The control-side view of an `AudioThread` (src/music.py:53-62): its
`muted` flag and shared `volume`. -/
structure AudioThreadState where
  muted : Bool
  volume : ℚ
deriving DecidableEq

/-- The `AudioPlayerWindow` state the transport claims are about
(src/music.py:308-324).  `repeatFlag` is the source's `repeat` attribute
(renamed: `repeat` is reserved in Lean). -/
structure Player where
  tracks : List Track
  currentTrackIndex : ℤ
  currentTrack : Option Track
  playback_position : ℚ
  audio_thread : Option AudioThreadState
  shuffle : Bool
  repeatFlag : Bool
  playback_history : List Track
  volume_level : ℕ

/-- `AudioThread.__init__` (src/music.py:53-62): a fresh thread starts with
`muted = False` and `volume = player.volume_level / 100.0`. -/
def mkAudioThread (p : Player) : AudioThreadState :=
  { muted := false, volume := (p.volume_level : ℚ) / 100 }

/-- `stopPlayback` (src/music.py:580-587): joins and discards the thread. -/
def stopPlayback (p : Player) : Player := { p with audio_thread := none }

/-- `addToHistory` (src/music.py:694-697) on the `deque(maxlen=100)`
(src/music.py:318): a track not yet present is pushed to the front,
dropping the oldest entry beyond 100; a track already present is left
where it is. -/
def addToHistory (t : Track) (h : List Track) : List Track :=
  if t ∈ h then h else (t :: h).take 100

/-- `playCurrentTrack` (src/music.py:566-578): stop the running thread; if
`currentTrackIndex` is out of range do nothing more, otherwise select the
track, spawn a fresh `AudioThread` (which will read `playback_position`
when it starts), and push the track onto the history. -/
def playCurrentTrack (p : Player) : Player :=
  let p1 := stopPlayback p
  if h : 0 ≤ p1.currentTrackIndex ∧ p1.currentTrackIndex < (p1.tracks.length : ℤ) then
    let t := p1.tracks.get ⟨p1.currentTrackIndex.toNat, by omega⟩
    { p1 with currentTrack := some t,
              audio_thread := some (mkAudioThread p1),
              playback_history := addToHistory t p1.playback_history }
  else p1

/-- `nextTrack` (src/music.py:596-604); `rnd % len(tracks)` stands for the
index `random.randint(0, len(tracks) - 1)` returns in shuffle mode. -/
def nextTrack (rnd : ℕ) (p : Player) : Player :=
  if 0 < p.tracks.length then
    let newIndex : ℤ :=
      if p.shuffle then ((rnd % p.tracks.length : ℕ) : ℤ)
      else (p.currentTrackIndex + 1) % (p.tracks.length : ℤ)
    playCurrentTrack { p with currentTrackIndex := newIndex, playback_position := 0 }
  else p

/-- `prevTrack` (src/music.py:589-594). -/
def prevTrack (p : Player) : Player :=
  if 0 < p.tracks.length then
    playCurrentTrack
      { p with currentTrackIndex := (p.currentTrackIndex - 1) % (p.tracks.length : ℤ),
               playback_position := 0 }
  else p

/-- `jumpToTrackByNumber` (src/music.py:816-823). -/
def jumpToTrackByNumber (p : Player) (n : ℕ) : Player :=
  if 1 ≤ n ∧ n ≤ p.tracks.length then
    playCurrentTrack { p with currentTrackIndex := (n : ℤ) - 1, playback_position := 0 }
  else p

/-- `playSelectedTrack` (src/music.py:783-788), with the selected row index. -/
def playSelectedTrack (p : Player) (index : ℕ) : Player :=
  if index < p.tracks.length then
    playCurrentTrack { p with currentTrackIndex := (index : ℤ), playback_position := 0 }
  else p

/-- `addSelectedFiles` (src/music.py:534-544): appends the chosen tracks. -/
def addSelectedFiles (p : Player) (newTracks : List Track) : Player :=
  { p with tracks := p.tracks ++ newTracks }

/-- `removeTrackAt` (src/music.py:804-814): pop the row; stop playback when
the removed row is the current index, decrement the index when the removed
row is before it, and leave the index alone otherwise. -/
def removeTrackAt (p : Player) (row : ℕ) : Player :=
  if row < p.tracks.length then
    let p1 := { p with tracks := p.tracks.eraseIdx row }
    if (row : ℤ) = p.currentTrackIndex then stopPlayback p1
    else if (row : ℤ) < p.currentTrackIndex then
      { p1 with currentTrackIndex := p.currentTrackIndex - 1 }
    else p1
  else p

/-- Python `str.strip()` applied to each playlist line (src/music.py:732):
leading and trailing whitespace characters are removed. -/
def stripLine (s : String) : String :=
  String.mk (((s.data.dropWhile Char.isWhitespace).reverse.dropWhile Char.isWhitespace).reverse)

/-- `loadPlaylist` (src/music.py:723-741): clear the playlist, then for each
line keep the stripped path when it resolves to a file, re-probing it into
a fresh `AudioTrack`; `probe` supplies the frame count and sample rate the
probe finds.  `currentTrackIndex` and the rest of the state are untouched. -/
def loadPlaylist (p : Player) (lines : List String) (isfile : String → Bool)
    (probe : String → ℕ × ℕ) : Player :=
  { p with tracks :=
      (((lines.map stripLine).filter (fun s => isfile s)).map
        (fun s => Track.mk s (probe s).1 (probe s).2)) }

/-- `savePlaylist` (src/music.py:707-721): one line per track, holding its
path (`f.write(f"{track.path}\n")`). -/
def savePlaylist (p : Player) : List String := p.tracks.map (fun t => t.path)

/-- `changeVolume` (src/music.py:622-627): always store the new level; push
it into the running thread only when a thread exists and is not muted. -/
def changeVolume (p : Player) (value : ℕ) : Player :=
  let p1 := { p with volume_level := value }
  match p1.audio_thread with
  | some th =>
    if th.muted then p1
    else { p1 with audio_thread := some { th with volume := (value : ℚ) / 100 } }
  | none => p1

/-- `toggleMute` (src/music.py:629-637): flip the running thread's flag. -/
def toggleMute (p : Player) : Player :=
  match p.audio_thread with
  | some th => { p with audio_thread := some { th with muted := !th.muted } }
  | none => p

/-- `rewind15` (src/music.py:606-610): clamp the position at zero, then
restart the session when one is running. -/
def rewind15 (p : Player) : Player :=
  let p1 := { p with playback_position := max 0 (p.playback_position - 15000) }
  if p1.audio_thread.isSome then playCurrentTrack p1 else p1

/-- `forward15` (src/music.py:612-620): only when the advanced position is
still strictly below the track duration is it stored (and the session
restarted); otherwise nothing happens at all. -/
def forward15 (p : Player) : Player :=
  match p.currentTrack with
  | none => p
  | some t =>
    let newPos := p.playback_position + 15000
    if newPos < t.duration * 1000 then
      let p1 := { p with playback_position := newPos }
      if p1.audio_thread.isSome then playCurrentTrack p1 else p1
    else p

/-- `playback_finished` (src/music.py:790-795): drop the finished thread,
then restart the same track when repeat is on, else advance. -/
def playback_finished (rnd : ℕ) (p : Player) : Player :=
  let p1 := { p with audio_thread := none }
  if p1.repeatFlag then playCurrentTrack p1 else nextTrack rnd p1

/-- The index invariant of the spec: `-1 <= currentIndex < len(tracks)`. -/
def indexInvariant (p : Player) : Prop :=
  -1 ≤ p.currentTrackIndex ∧ p.currentTrackIndex < (p.tracks.length : ℤ)

instance (p : Player) : Decidable (indexInvariant p) := by
  unfold indexInvariant; infer_instance

/-- A chunk environment with no stop request, no write failure, no mute,
and full volume: an undisturbed session. -/
def quietEnv : ChunkEnv :=
  { mutedAt := fun _ => false, gainAt := fun _ => 1,
    stopAt := fun _ => false, writeOk := fun _ => true }

/-- A four-frame track at 2 frames per second: duration 2 s = 2000 ms. -/
def tinyTrack : Track := { path := "song.wav", frames := 4, samplerate := 2 }

/-- The decoded samples of `tinyTrack`. -/
def tinyData : List ℤ := [5, 6, 7, 8]

/-- A session on `tinyTrack` started at position 0 and left alone. -/
def tinyRunInput : RunInput :=
  { fileExists := true, decodeResult := some (tinyData, 2), deviceOk := true,
    startPos := 0, env := quietEnv }

/-- The controller state at the moment that session completes naturally:
repeat enabled, and `playback_position` as the session left it. -/
def tinyPlayer : Player :=
  { tracks := [tinyTrack], currentTrackIndex := 0, currentTrack := some tinyTrack,
    playback_position := (run tinyRunInput).finalPos, audio_thread := none,
    shuffle := false, repeatFlag := true, playback_history := [tinyTrack],
    volume_level := 80 }

/-- The session the completion handler then spawns: same track, but started
from the position the previous session left behind. -/
def tinyRestartInput : RunInput :=
  { fileExists := true, decodeResult := some (tinyData, 2), deviceOk := true,
    startPos := (playback_finished 0 tinyPlayer).playback_position, env := quietEnv }

/-- A one-chunk session at gain 1/2 with mute off. -/
def halfGainInput : RunInput :=
  { fileExists := true, decodeResult := some ([1000], 1), deviceOk := true,
    startPos := 0,
    env := { mutedAt := fun _ => false, gainAt := fun _ => 1/2,
             stopAt := fun _ => false, writeOk := fun _ => true } }

/-- A session whose file does not exist. -/
def noFileInput : RunInput :=
  { fileExists := false, decodeResult := none, deviceOk := false,
    startPos := 0, env := quietEnv }

/-- A controller with one playing, muted session on `tinyTrack`. -/
def mutedPlayer : Player :=
  { tracks := [tinyTrack], currentTrackIndex := 0, currentTrack := some tinyTrack,
    playback_position := 0, audio_thread := some { muted := true, volume := 4/5 },
    shuffle := false, repeatFlag := false, playback_history := [tinyTrack],
    volume_level := 80 }

/-- A controller playing the single (hence last) track of its playlist. -/
def lastTrackPlayer : Player :=
  { tracks := [tinyTrack], currentTrackIndex := 0, currentTrack := some tinyTrack,
    playback_position := 0, audio_thread := some { muted := false, volume := 4/5 },
    shuffle := false, repeatFlag := false, playback_history := [tinyTrack],
    volume_level := 80 }

/-- A second track, distinct from `tinyTrack`. -/
def otherTrack : Track := { path := "other.wav", frames := 6, samplerate := 3 }

/-- A controller with a two-track playlist, playing the first track. -/
def okPlayer : Player :=
  { tracks := [tinyTrack, otherTrack], currentTrackIndex := 0,
    currentTrack := some tinyTrack, playback_position := 0, audio_thread := none,
    shuffle := false, repeatFlag := false, playback_history := [tinyTrack],
    volume_level := 80 }

/-- History sample track. -/
def trackA : Track := { path := "a", frames := 0, samplerate := 0 }

/-- Another history sample track. -/
def trackB : Track := { path := "b", frames := 0, samplerate := 0 }

/-- A 20-second track (40 frames at 2 frames per second). -/
def fwdTrack : Track := { path := "t.wav", frames := 40, samplerate := 2 }

/-- A controller 10 s into `fwdTrack`, with no session running. -/
def fwdPlayer : Player :=
  { tracks := [fwdTrack], currentTrackIndex := 0, currentTrack := some fwdTrack,
    playback_position := 10000, audio_thread := none, shuffle := false,
    repeatFlag := false, playback_history := [fwdTrack], volume_level := 80 }

/-- A controller 20 s into `fwdTrack` with a running session. -/
def seekPlayer : Player :=
  { tracks := [fwdTrack], currentTrackIndex := 0, currentTrack := some fwdTrack,
    playback_position := 20000, audio_thread := some { muted := false, volume := 4/5 },
    shuffle := false, repeatFlag := false, playback_history := [fwdTrack],
    volume_level := 80 }

/-- A playlist whose only track has a path with a leading space. -/
def spacedPlayer : Player :=
  { tracks := [{ path := " a", frames := 1, samplerate := 1 }],
    currentTrackIndex := -1, currentTrack := none, playback_position := 0,
    audio_thread := none, shuffle := false, repeatFlag := false,
    playback_history := [], volume_level := 80 }

set_option maxRecDepth 100000

theorem ratTrunc_intCast (n : ℤ) : ratTrunc (n : ℚ) = n := by
  unfold ratTrunc
  split <;> simp

theorem scaleSample_bounds (g : ℚ) (x : ℤ) (hg0 : 0 ≤ g) (hg1 : g ≤ 1)
    (hlo : int16Min ≤ x) (hhi : x ≤ int16Max) :
    int16Min ≤ scaleSample g x ∧ scaleSample g x ≤ int16Max := by
  unfold int16Min at hlo ⊢
  unfold int16Max at hhi ⊢
  unfold scaleSample ratTrunc
  have hxl : (-32768 : ℚ) ≤ (x : ℚ) := by exact_mod_cast hlo
  have hxh : (x : ℚ) ≤ 32767 := by exact_mod_cast hhi
  by_cases h : 0 ≤ (x : ℚ) * g
  · rw [if_pos h]
    constructor
    · have h0 : (0 : ℤ) ≤ ⌊(x : ℚ) * g⌋ := Int.floor_nonneg.mpr h
      omega
    · have hle : (x : ℚ) * g ≤ 32767 := by
        rcases le_or_lt 0 (x : ℚ) with hx | hx
        · have h1 : (x : ℚ) * g ≤ (x : ℚ) * 1 := mul_le_mul_of_nonneg_left hg1 hx
          rw [mul_one] at h1
          linarith
        · have h1 : (x : ℚ) * g ≤ 0 := mul_nonpos_of_nonpos_of_nonneg hx.le hg0
          linarith
      calc ⌊(x : ℚ) * g⌋ ≤ ⌊(32767 : ℚ)⌋ := Int.floor_mono hle
        _ = 32767 := by norm_num
  · rw [if_neg h]
    push_neg at h
    have hx0 : (x : ℚ) ≤ 0 := by
      by_contra hc
      push_neg at hc
      exact absurd (mul_nonneg hc.le hg0) (not_le.mpr h)
    constructor
    · have hxg : (x : ℚ) * 1 ≤ (x : ℚ) * g := mul_le_mul_of_nonpos_left hg1 hx0
      rw [mul_one] at hxg
      have hc : ⌈(((-32768 : ℤ)) : ℚ)⌉ = (-32768 : ℤ) := Int.ceil_intCast _
      calc (-32768 : ℤ) = ⌈(((-32768 : ℤ)) : ℚ)⌉ := hc.symm
        _ ≤ ⌈(x : ℚ) * g⌉ := Int.ceil_mono (by push_cast; linarith)
    · have h2 : ⌈(x : ℚ) * g⌉ ≤ ⌈(0 : ℚ)⌉ := Int.ceil_mono h.le
      simp only [Int.ceil_zero] at h2
      omega

theorem toInt16Wrap_eq_self (n : ℤ) (h1 : int16Min ≤ n) (h2 : n ≤ int16Max) :
    toInt16Wrap n = n := by
  unfold int16Min at h1
  unfold int16Max at h2
  unfold toInt16Wrap
  have h3 : Int.emod (n + 32768) 65536 = n + 32768 :=
    Int.emod_eq_of_lt (by omega) (by omega)
  omega

theorem clipInt16_eq_self (n : ℤ) (h1 : int16Min ≤ n) (h2 : n ≤ int16Max) :
    clipInt16 n = n := by
  unfold clipInt16 int16Min int16Max at *
  omega

theorem processChunk_muted_eq_zeros (g : ℚ) (chunk : List ℤ) :
    processChunk true g chunk = chunk.map (fun _ => 0) := by
  unfold processChunk applyMute
  rw [if_pos rfl, List.map_map]
  have hz : toInt16Wrap (scaleSample g 0) = 0 := by
    have h1 : scaleSample g 0 = 0 := by
      unfold scaleSample
      norm_num [ratTrunc]
    rw [h1]
    decide
  exact List.map_congr_left (fun x _ => hz)

/-- Claim C2: for a chunk of a running session, mute produces an all-zero
chunk of the same shape whatever the gain and samples are; unmuted, every
written sample is the input sample scaled by the gain `g ∈ [0,1]` and lies
inside the `int16` range, so the wrapping `astype(np.int16)` conversion acts
as the identity (equivalently, as clipping): no sample overflows. -/
theorem c2_chunk_pipeline (g : ℚ) (chunk : List ℤ) :
    (processChunk true g chunk = chunk.map (fun _ => 0))
    ∧ ((processChunk true g chunk).length = chunk.length)
    ∧ (0 ≤ g → g ≤ 1 → (∀ x ∈ chunk, int16Min ≤ x ∧ x ≤ int16Max) →
        processChunk false g chunk = chunk.map (fun x => clipInt16 (scaleSample g x))
        ∧ processChunk false g chunk = chunk.map (fun x => scaleSample g x)) := by
  refine ⟨processChunk_muted_eq_zeros g chunk, ?_, ?_⟩
  · rw [processChunk_muted_eq_zeros g chunk, List.length_map]
  · intro hg0 hg1 hmem
    have key : ∀ x ∈ chunk, toInt16Wrap (scaleSample g x) = scaleSample g x := by
      intro x hx
      obtain ⟨h1, h2⟩ := scaleSample_bounds g x hg0 hg1 (hmem x hx).1 (hmem x hx).2
      exact toInt16Wrap_eq_self _ h1 h2
    have hpc : processChunk false g chunk = chunk.map (fun x => scaleSample g x) := by
      unfold processChunk applyMute
      rw [if_neg (by simp)]
      exact List.map_congr_left key
    refine ⟨?_, hpc⟩
    rw [hpc]
    refine List.map_congr_left ?_
    intro x hx
    obtain ⟨h1, h2⟩ := scaleSample_bounds g x hg0 hg1 (hmem x hx).1 (hmem x hx).2
    rw [clipInt16_eq_self _ h1 h2]

/-- Witness for C2 at gain 1/2 on the chunk `[1000, -32768]`. -/
theorem c2_chunk_pipeline_witness :
    processChunk false (1/2) [1000, -32768]
      = ([1000, -32768] : List ℤ).map (fun x => clipInt16 (scaleSample (1/2) x))
    ∧ processChunk true (1/2) [1000, -32768] = [0, 0] := by
  constructor
  · exact ((c2_chunk_pipeline (1/2) [1000, -32768]).2.2 (by norm_num) (by norm_num)
      (by decide)).1
  · rw [(c2_chunk_pipeline (1/2) [1000, -32768]).1]
    decide

theorem streamLoop_viz_eq_writes (env : ChunkEnv) (samplerate currentFrame : ℕ)
    (data : List ℤ) (starts : List ℕ) : ∀ pos : ℚ,
    (streamLoop env samplerate currentFrame data starts pos).viz
      = (streamLoop env samplerate currentFrame data starts pos).writes.map
          (fun c => (c, c.length)) := by
  induction starts with
  | nil => intro pos; rfl
  | cons i rest ih =>
    intro pos
    dsimp only [streamLoop]
    split
    · rfl
    · split
      · rfl
      · split
        · simp [ih]
        · rfl

/-- Claim C3, amended: the visualization callback is invoked exactly once per
chunk written, but it receives the post-mute, post-gain chunk — exactly the
data written to the device — together with its length, not the pre-gain
chunk. -/
theorem c3_viz_matches_written (inp : RunInput) :
    (run inp).viz = (run inp).writes.map (fun c => (c, c.length)) := by
  unfold run
  by_cases hf : inp.fileExists = false
  · simp [hf]
  · cases hd : inp.decodeResult with
    | none => simp [hf, hd]
    | some pr =>
      obtain ⟨data, samplerate⟩ := pr
      by_cases hdev : inp.deviceOk = false
      · simp [hf, hd, hdev]
      · simp only [hf, hd, hdev, if_neg, Bool.false_eq_true, if_false]
        exact streamLoop_viz_eq_writes inp.env samplerate _ _ _ inp.startPos

/-- Claim C3, counterexample: at gain 1/2 the visualization receives the
scaled chunk `[500]`, not the post-mute pre-gain chunk `[1000]` (the source
passes the reassigned `chunk` after the gain multiplication,
src/music.py:104,114). -/
theorem c3_viz_not_pregain :
    (run halfGainInput).viz = [([500], 1)]
    ∧ applyMute false [1000] = [1000]
    ∧ (([(500 : ℤ)], 1) : List ℤ × ℕ) ≠ (([1000], 1) : List ℤ × ℕ) := by
  refine ⟨by with_unfolding_all decide, by decide, by decide⟩

/-- Claim C6: a missing file, a decode failure or a device-open failure
fires the error callback, streams nothing, and never completes; every
session that gets past device open invokes the completion callback exactly
once whatever the exit path; a start offset at or past end-of-data writes
no chunk at all (and still completes). -/
theorem c6_error_and_completion (inp : RunInput) :
    (inp.fileExists = false ∨ inp.decodeResult = none ∨ inp.deviceOk = false →
      (run inp).errors = 1 ∧ (run inp).writes = [] ∧ (run inp).completions = 0)
    ∧ (∀ data samplerate, inp.fileExists = true →
        inp.decodeResult = some (data, samplerate) → inp.deviceOk = true →
        (run inp).completions = 1
        ∧ (data.length ≤ startFrame inp.startPos samplerate →
            (run inp).writes = [])) := by
  constructor
  · intro hfail
    unfold run
    rcases hfail with hf | hd | hdev
    · simp [hf]
    · cases hf : inp.fileExists
      · simp [hf]
      · simp [hf, hd]
    · cases hf : inp.fileExists
      · simp [hf]
      · cases hd : inp.decodeResult with
        | none => simp [hf, hd]
        | some pr =>
          obtain ⟨data, samplerate⟩ := pr
          simp [hf, hd, hdev]
  · intro data samplerate hf hd hdev
    refine ⟨?_, ?_⟩
    · simp [run, hf, hd, hdev]
    · intro hpast
      have hnil : data.drop (startFrame inp.startPos samplerate) = [] :=
        List.drop_eq_nil_of_le hpast
      have hrange : pyRange 0 chunkSize = [] := by decide
      simp [run, hf, hd, hdev, hnil, hrange, streamLoop]

/-- Witness for C6: a missing file errors without completing; the tiny
session completes once; restarting it past end-of-data writes nothing. -/
theorem c6_error_and_completion_witness :
    ((run noFileInput).errors = 1 ∧ (run noFileInput).writes = []
      ∧ (run noFileInput).completions = 0)
    ∧ (run tinyRunInput).completions = 1
    ∧ (run tinyRestartInput).writes = [] := by
  refine ⟨(c6_error_and_completion noFileInput).1 (Or.inl rfl), ?_, ?_⟩
  · exact ((c6_error_and_completion tinyRunInput).2 tinyData 2 rfl rfl rfl).1
  · exact ((c6_error_and_completion tinyRestartInput).2 tinyData 2 rfl rfl rfl).2
      (by with_unfolding_all decide)

/-- Claim C1, code bug: after the four-frame track finishes naturally, the
shared position stands at the full duration (2000 ms).  With repeat on, the
completion handler restarts the same track (index 0) but never resets the
position, so the new session starts at offset 2000 ms — not 0 ms — seeks
past end-of-data and writes no audio at all. -/
theorem c1_repeat_restarts_at_end_not_zero :
    (run tinyRunInput).finalPos = 2000
    ∧ (playback_finished 0 tinyPlayer).currentTrackIndex = 0
    ∧ (playback_finished 0 tinyPlayer).playback_position = 2000
    ∧ ((2000 : ℚ) ≠ 0)
    ∧ (run tinyRestartInput).writes = []
    ∧ (run tinyRestartInput).completions = 1 := by
  refine ⟨by with_unfolding_all decide, by with_unfolding_all decide,
    by with_unfolding_all decide, by norm_num,
    by with_unfolding_all decide, by with_unfolding_all decide⟩

theorem playCurrentTrack_preserves (p : Player) :
    (playCurrentTrack p).tracks = p.tracks
    ∧ (playCurrentTrack p).currentTrackIndex = p.currentTrackIndex
    ∧ (playCurrentTrack p).playback_position = p.playback_position
    ∧ (playCurrentTrack p).volume_level = p.volume_level := by
  unfold playCurrentTrack stopPlayback
  dsimp only
  split <;> simp

theorem playCurrentTrack_thread (p : Player)
    (h0 : 0 ≤ p.currentTrackIndex) (h1 : p.currentTrackIndex < (p.tracks.length : ℤ)) :
    (playCurrentTrack p).audio_thread = some (mkAudioThread p) := by
  unfold playCurrentTrack stopPlayback mkAudioThread
  dsimp only
  rw [dif_pos ⟨h0, h1⟩]

/-- Claim C4, counterexample: with a running muted session at gain 4/5,
`changeVolume 50` leaves the session's gain at 4/5 instead of updating it
to 1/2 (the `and not self.audio_thread.muted` guard, src/music.py:624). -/
theorem c4_muted_session_keeps_old_gain :
    (changeVolume mutedPlayer 50).audio_thread = some { muted := true, volume := 4/5 }
    ∧ ((4 : ℚ)/5) ≠ ((50 : ℚ)/100) := by
  refine ⟨by with_unfolding_all decide, by norm_num⟩

/-- Claim C4, amended: a volume change always stores the new level in the
controller, and pushes the rescaled gain into the running session only when
that session is not muted; while muted, the session's gain keeps its
previous value (the stored level applies only to later sessions). -/
theorem c4_volume_update (p : Player) (v : ℕ) (th : AudioThreadState)
    (h : p.audio_thread = some th) :
    (changeVolume p v).volume_level = v
    ∧ (th.muted = false →
        (changeVolume p v).audio_thread
          = some { muted := th.muted, volume := (v : ℚ) / 100 })
    ∧ (th.muted = true → (changeVolume p v).audio_thread = some th) := by
  unfold changeVolume
  dsimp only
  rw [h]
  cases hm : th.muted <;> simp [hm]

/-- Witness for C4 on the muted player at volume 50. -/
theorem c4_volume_update_witness :
    (changeVolume mutedPlayer 50).volume_level = 50
    ∧ (changeVolume mutedPlayer 50).audio_thread = some { muted := true, volume := 4/5 } :=
  ⟨(c4_volume_update mutedPlayer 50 { muted := true, volume := 4/5 } rfl).1,
   (c4_volume_update mutedPlayer 50 { muted := true, volume := 4/5 } rfl).2.2 rfl⟩

/-- Claim C7, counterexample: re-playing `trackB`, already in the history
`[trackA, trackB]`, leaves the history unchanged instead of moving the
entry to the front (src/music.py:695 only guards insertion). -/
theorem c7_replay_does_not_move_to_front :
    addToHistory trackB [trackA, trackB] = [trackA, trackB]
    ∧ ([trackA, trackB] : List Track) ≠ [trackB, trackA] := by
  decide

/-- Claim C7, amended: the history keeps at most 100 pairwise-distinct
entries; a track not yet present is inserted at the front (evicting beyond
100); re-playing a track already present leaves the history unchanged —
it is not moved to the front. -/
theorem c7_history_invariants (t : Track) (h : List Track) :
    (h.length ≤ 100 → (addToHistory t h).length ≤ 100)
    ∧ (h.Nodup → (addToHistory t h).Nodup)
    ∧ (t ∉ h → addToHistory t h = (t :: h).take 100)
    ∧ (t ∈ h → addToHistory t h = h) := by
  unfold addToHistory
  by_cases hm : t ∈ h
  · refine ⟨?_, ?_, ?_, ?_⟩ <;> simp [hm]
  · rw [if_neg hm]
    refine ⟨?_, ?_, fun _ => rfl, fun hc => absurd hc hm⟩
    · intro hlen
      rw [List.length_take]
      omega
    · intro hnd
      exact ((t :: h).take_sublist 100).nodup (List.nodup_cons.mpr ⟨hm, hnd⟩)

/-- Witness for C7: inserting a fresh track and re-playing a present one. -/
theorem c7_history_invariants_witness :
    (addToHistory trackA [trackB]).length ≤ 100
    ∧ (addToHistory trackA [trackB]).Nodup
    ∧ addToHistory trackA [trackB] = (trackA :: [trackB]).take 100
    ∧ addToHistory trackB [trackB] = [trackB] :=
  ⟨(c7_history_invariants trackA [trackB]).1 (by decide),
   (c7_history_invariants trackA [trackB]).2.1 (by decide),
   (c7_history_invariants trackA [trackB]).2.2.1 (by decide),
   (c7_history_invariants trackB [trackB]).2.2.2 (by decide)⟩

theorem indexInvariant_playCurrentTrack (q : Player) (h : indexInvariant q) :
    indexInvariant (playCurrentTrack q) := by
  obtain ⟨ht, hi, -, -⟩ := playCurrentTrack_preserves q
  unfold indexInvariant at *
  rw [ht, hi]
  exact h

/-- Claim C5, counterexample: removing the currently playing track when it is
the last playlist entry leaves `currentTrackIndex = 0` over an empty
playlist, violating `-1 <= currentIndex < len(tracks)`
(src/music.py:811-812 stops playback but never adjusts the index). -/
theorem c5_remove_current_last_breaks_invariant :
    indexInvariant lastTrackPlayer
    ∧ ¬ indexInvariant (removeTrackAt lastTrackPlayer 0) := by
  refine ⟨by decide, by decide⟩

/-- Claim C5, amended: the invariant `-1 <= currentIndex < len(tracks)` is
preserved by adding tracks, next, previous, jump-to-track and
play-selected; removal preserves it except when the removed row is the
current index sitting at the last position (then the index ends up equal
to the shrunken length); loading a playlist keeps `currentTrackIndex`
unchanged, so it preserves the invariant exactly when the old index is
below the number of kept lines. -/
theorem c5_index_invariant_ops (p : Player) (hp : indexInvariant p)
    (newTracks : List Track) (rnd n index row : ℕ)
    (lines : List String) (isfile : String → Bool) (probe : String → ℕ × ℕ) :
    indexInvariant (addSelectedFiles p newTracks)
    ∧ indexInvariant (nextTrack rnd p)
    ∧ indexInvariant (prevTrack p)
    ∧ indexInvariant (jumpToTrackByNumber p n)
    ∧ indexInvariant (playSelectedTrack p index)
    ∧ (¬((row : ℤ) = p.currentTrackIndex ∧ (row : ℤ) = (p.tracks.length : ℤ) - 1) →
        indexInvariant (removeTrackAt p row))
    ∧ (p.currentTrackIndex < (((lines.map stripLine).filter (fun s => isfile s)).length : ℤ) →
        indexInvariant (loadPlaylist p lines isfile probe)) := by
  obtain ⟨hp1, hp2⟩ := hp
  refine ⟨?_, ?_, ?_, ?_, ?_, ?_, ?_⟩
  · unfold addSelectedFiles indexInvariant
    dsimp only
    rw [List.length_append]
    push_cast
    omega
  · unfold nextTrack
    by_cases hlen : 0 < p.tracks.length
    · rw [if_pos hlen]
      apply indexInvariant_playCurrentTrack
      unfold indexInvariant
      dsimp only
      have hne : (p.tracks.length : ℤ) ≠ 0 := by exact_mod_cast hlen.ne'
      have hpos : (0 : ℤ) < (p.tracks.length : ℤ) := by exact_mod_cast hlen
      constructor
      · split
        · omega
        · have := Int.emod_nonneg (p.currentTrackIndex + 1) hne
          omega
      · split
        · have := Nat.mod_lt rnd hlen
          omega
        · exact Int.emod_lt_of_pos _ hpos
    · rw [if_neg hlen]
      exact ⟨hp1, hp2⟩
  · unfold prevTrack
    by_cases hlen : 0 < p.tracks.length
    · rw [if_pos hlen]
      apply indexInvariant_playCurrentTrack
      unfold indexInvariant
      dsimp only
      have hne : (p.tracks.length : ℤ) ≠ 0 := by exact_mod_cast hlen.ne'
      have hpos : (0 : ℤ) < (p.tracks.length : ℤ) := by exact_mod_cast hlen
      constructor
      · have := Int.emod_nonneg (p.currentTrackIndex - 1) hne
        omega
      · exact Int.emod_lt_of_pos _ hpos
    · rw [if_neg hlen]
      exact ⟨hp1, hp2⟩
  · unfold jumpToTrackByNumber
    by_cases hc : 1 ≤ n ∧ n ≤ p.tracks.length
    · rw [if_pos hc]
      apply indexInvariant_playCurrentTrack
      unfold indexInvariant
      dsimp only
      omega
    · rw [if_neg hc]
      exact ⟨hp1, hp2⟩
  · unfold playSelectedTrack
    by_cases hc : index < p.tracks.length
    · rw [if_pos hc]
      apply indexInvariant_playCurrentTrack
      unfold indexInvariant
      dsimp only
      omega
    · rw [if_neg hc]
      exact ⟨hp1, hp2⟩
  · intro hnot
    unfold removeTrackAt
    by_cases hrow : row < p.tracks.length
    · rw [if_pos hrow]
      dsimp only
      have hlen1 : (p.tracks.eraseIdx row).length + 1 = p.tracks.length :=
        List.length_eraseIdx_add_one hrow
      by_cases heq : (row : ℤ) = p.currentTrackIndex
      · rw [if_pos heq]
        unfold stopPlayback indexInvariant
        dsimp only
        have hne : ¬((row : ℤ) = (p.tracks.length : ℤ) - 1) := fun hx => hnot ⟨heq, hx⟩
        omega
      · rw [if_neg heq]
        by_cases hlt : (row : ℤ) < p.currentTrackIndex
        · rw [if_pos hlt]
          unfold indexInvariant
          dsimp only
          omega
        · rw [if_neg hlt]
          unfold indexInvariant
          dsimp only
          omega
    · rw [if_neg hrow]
      exact ⟨hp1, hp2⟩
  · intro hload
    unfold loadPlaylist indexInvariant
    dsimp only
    rw [List.length_map]
    exact ⟨hp1, hload⟩

/-- Witness for C5 on the two-track player. -/
theorem c5_index_invariant_ops_witness :
    indexInvariant (addSelectedFiles okPlayer [])
    ∧ indexInvariant (nextTrack 0 okPlayer)
    ∧ indexInvariant (prevTrack okPlayer)
    ∧ indexInvariant (jumpToTrackByNumber okPlayer 2)
    ∧ indexInvariant (playSelectedTrack okPlayer 1)
    ∧ indexInvariant (removeTrackAt okPlayer 1)
    ∧ indexInvariant (loadPlaylist okPlayer ["x"] (fun _ => true) (fun _ => (0, 0))) := by
  have h := c5_index_invariant_ops okPlayer (by decide) [] 0 2 1 1 ["x"]
    (fun _ => true) (fun _ => (0, 0))
  exact ⟨h.1, h.2.1, h.2.2.1, h.2.2.2.1, h.2.2.2.2.1,
    h.2.2.2.2.2.1 (by decide), h.2.2.2.2.2.2 (by decide)⟩

/-- Claim C8, counterexample: 10 s into a 20 s track, `forward15` leaves the
position at 10000 ms — it neither clamps to the 20000 ms duration nor moves
at all (the `if new_position < duration` guard simply drops the update,
src/music.py:616). -/
theorem c8_forward_past_end_is_noop :
    (forward15 fwdPlayer).playback_position = 10000
    ∧ fwdTrack.duration * 1000 = 20000
    ∧ ((10000 : ℚ) ≠ 20000)
    ∧ ((10000 : ℚ) ≠ 25000) := by
  have hd : fwdTrack.duration * 1000 = 20000 := by
    unfold Track.duration fwdTrack
    norm_num
  have hf : forward15 fwdPlayer = fwdPlayer := by
    unfold forward15
    rw [show fwdPlayer.currentTrack = some fwdTrack from rfl]
    dsimp only
    rw [if_neg]
    rw [hd]
    show ¬((10000 : ℚ) + 15000 < 20000)
    norm_num
  exact ⟨by rw [hf]; rfl, hd, by norm_num, by norm_num⟩

/-- Claim C8, amended: `rewind15` always sets the position to
`max 0 (p - 15000)` and restarts the session when one is active;
`forward15` moves to `p + 15000` (restarting an active session) only when
that stays strictly below the track duration — otherwise it changes
nothing, rather than clamping to the duration. -/
theorem c8_seek_behavior (p : Player) :
    ((rewind15 p).playback_position = max 0 (p.playback_position - 15000))
    ∧ (p.audio_thread = none →
        rewind15 p = { p with playback_position := max 0 (p.playback_position - 15000) })
    ∧ (p.audio_thread.isSome = true → 0 ≤ p.currentTrackIndex →
        p.currentTrackIndex < (p.tracks.length : ℤ) →
        (rewind15 p).audio_thread = some (mkAudioThread p))
    ∧ (∀ t, p.currentTrack = some t →
        (p.playback_position + 15000 < t.duration * 1000 →
          (forward15 p).playback_position = p.playback_position + 15000)
        ∧ (t.duration * 1000 ≤ p.playback_position + 15000 → forward15 p = p))
    ∧ (p.currentTrack = none → forward15 p = p) := by
  refine ⟨?_, ?_, ?_, ?_, ?_⟩
  · unfold rewind15
    dsimp only
    split
    · rw [(playCurrentTrack_preserves _).2.2.1]
    · rfl
  · intro hnone
    unfold rewind15
    dsimp only
    rw [hnone]
    rfl
  · intro hsome h0 h1
    unfold rewind15
    dsimp only
    rw [hsome, if_pos rfl]
    exact playCurrentTrack_thread _ h0 h1
  · intro t hct
    unfold forward15
    rw [hct]
    dsimp only
    constructor
    · intro hlt
      rw [if_pos hlt]
      split
      · rw [(playCurrentTrack_preserves _).2.2.1]
      · rfl
    · intro hge
      rw [if_neg (not_lt.mpr hge)]
  · intro hnone
    unfold forward15
    rw [hnone]

/-- Witness for C8: rewinding with an active session and forwarding past the
end of the track. -/
theorem c8_seek_behavior_witness :
    (rewind15 seekPlayer).playback_position = max 0 (seekPlayer.playback_position - 15000)
    ∧ (rewind15 seekPlayer).audio_thread = some (mkAudioThread seekPlayer)
    ∧ forward15 fwdPlayer = fwdPlayer := by
  refine ⟨(c8_seek_behavior seekPlayer).1, ?_, ?_⟩
  · exact (c8_seek_behavior seekPlayer).2.2.1 rfl (by decide) (by decide)
  · refine ((c8_seek_behavior fwdPlayer).2.2.2.1 fwdTrack rfl).2 ?_
    show fwdTrack.duration * 1000 ≤ (10000 : ℚ) + 15000
    unfold Track.duration fwdTrack
    norm_num

/-- Claim C9, counterexample: a saved path with a leading space is stripped
when the playlist is reloaded, so the reloaded path differs from the saved
one even though the filter keeps it. -/
theorem c9_strip_changes_path :
    savePlaylist spacedPlayer = [" a"]
    ∧ ((loadPlaylist spacedPlayer (savePlaylist spacedPlayer) (fun _ => true)
        (fun _ => (1, 1))).tracks.map (fun t => t.path)) = ["a"]
    ∧ (savePlaylist spacedPlayer).filter (fun _ => true) = [" a"]
    ∧ (["a"] : List String) ≠ [" a"] := by
  decide

/-- Claim C9, amended: provided no saved path carries leading or trailing
whitespace (the loader strips every line), saving a playlist and reloading
it yields tracks whose paths are exactly the saved paths, in order,
skipping those the file-existence probe rejects. -/
theorem c9_roundtrip (p : Player) (isfile : String → Bool) (probe : String → ℕ × ℕ)
    (hstrip : ∀ s ∈ savePlaylist p, stripLine s = s) :
    ((loadPlaylist p (savePlaylist p) isfile probe).tracks.map (fun t => t.path))
      = (savePlaylist p).filter (fun s => isfile s) := by
  unfold loadPlaylist
  dsimp only
  have h1 : (savePlaylist p).map stripLine = (savePlaylist p).map (fun s => s) :=
    List.map_congr_left hstrip
  rw [h1, List.map_id', List.map_map]
  exact (List.map_congr_left (fun s _ => rfl)).trans (List.map_id' _)

/-- Witness for C9: a two-track playlist reloaded with one path rejected. -/
theorem c9_roundtrip_witness :
    ((loadPlaylist okPlayer (savePlaylist okPlayer) (fun s => s != "other.wav")
        (fun _ => (0, 0))).tracks.map (fun t => t.path))
      = (savePlaylist okPlayer).filter (fun s => s != "other.wav") :=
  c9_roundtrip okPlayer (fun s => s != "other.wav") (fun _ => (0, 0)) (by decide)

/-- Claim C10: every freshly spawned session starts unmuted with gain
`volume_level / 100`, whatever the previous session's mute state was — so
mute does not survive a restart while the volume level does. -/
theorem c10_fresh_session_defaults (p : Player) :
    (0 ≤ p.currentTrackIndex → p.currentTrackIndex < (p.tracks.length : ℤ) →
      (playCurrentTrack p).audio_thread
        = some { muted := false, volume := (p.volume_level : ℚ) / 100 })
    ∧ (∀ rnd, 0 < p.tracks.length →
        (nextTrack rnd p).audio_thread
          = some { muted := false, volume := (p.volume_level : ℚ) / 100 })
    ∧ (0 < p.tracks.length →
        (prevTrack p).audio_thread
          = some { muted := false, volume := (p.volume_level : ℚ) / 100 }) := by
  refine ⟨?_, ?_, ?_⟩
  · intro h0 h1
    rw [playCurrentTrack_thread p h0 h1]
    rfl
  · intro rnd hlen
    have hne : (p.tracks.length : ℤ) ≠ 0 := by exact_mod_cast hlen.ne'
    have hpos : (0 : ℤ) < (p.tracks.length : ℤ) := by exact_mod_cast hlen
    unfold nextTrack
    rw [if_pos hlen]
    refine (playCurrentTrack_thread _ ?_ ?_).trans rfl
    · dsimp only
      split
      · exact Int.natCast_nonneg _
      · exact Int.emod_nonneg _ hne
    · dsimp only
      split
      · exact_mod_cast Nat.mod_lt rnd hlen
      · exact Int.emod_lt_of_pos _ hpos
  · intro hlen
    have hne : (p.tracks.length : ℤ) ≠ 0 := by exact_mod_cast hlen.ne'
    have hpos : (0 : ℤ) < (p.tracks.length : ℤ) := by exact_mod_cast hlen
    unfold prevTrack
    rw [if_pos hlen]
    refine (playCurrentTrack_thread _ ?_ ?_).trans rfl
    · dsimp only
      exact Int.emod_nonneg _ hne
    · dsimp only
      exact Int.emod_lt_of_pos _ hpos

/-- Witness for C10 on a controller whose previous session is muted. -/
theorem c10_fresh_session_defaults_witness :
    (playCurrentTrack mutedPlayer).audio_thread
      = some { muted := false, volume := (mutedPlayer.volume_level : ℚ) / 100 }
    ∧ (nextTrack 0 mutedPlayer).audio_thread
      = some { muted := false, volume := (mutedPlayer.volume_level : ℚ) / 100 } := by
  have h := c10_fresh_session_defaults mutedPlayer
  exact ⟨h.1 (by decide) (by decide), h.2.1 0 (by decide)⟩

end Music
